import Mathlib

/-!
Verification development for the Earth Polychromatic Imaging Camera API
repository.  Python strings are embedded as `List Char`; the relevant
functions of `client.py`, `models.py`, `cli.py`, `epic_s3_downloader.py`
and `lambda_handler.py` are translated into executable Lean definitions,
and the specification's claims are settled as theorems about them.
-/

namespace EpicApi

/-- Characters of a Lean string literal, used to write down Python string
constants as `List Char` values. -/
def chars (s : String) : List Char := s.toList

/-- Embedding of Python's `str.split(sep)` for a single-character separator
(`date.split("-")`, `image_name.split("_")` in the source).  Mirrors Python
semantics: `"".split(sep) == [""]`, adjacent separators produce empty
segments, and the result is never the empty list. -/
def splitSep (sep : Char) : List Char → List (List Char)
  | [] => [[]]
  | c :: rest =>
    if c = sep then [] :: splitSep sep rest
    else (c :: (splitSep sep rest).headI) :: (splitSep sep rest).tail

theorem splitSep_ne_nil (sep : Char) (s : List Char) : splitSep sep s ≠ [] := by
  cases s with
  | nil => simp [splitSep]
  | cons c rest =>
    simp only [splitSep]
    split <;> simp

theorem splitSep_length (sep : Char) (s : List Char) :
    (splitSep sep s).length = s.count sep + 1 := by
  induction s with
  | nil => simp [splitSep]
  | cons c rest ih =>
    simp only [splitSep]
    split
    · next h =>
      subst h
      simp [List.count_cons, ih]
    · next h =>
      have hne := splitSep_ne_nil sep rest
      cases hr : splitSep sep rest with
      | nil => exact absurd hr hne
      | cons a t =>
        simp only [hr] at ih
        simp [List.count_cons, h, ← ih]

/-- Splitting a list that starts with a separator-free segment followed by the
separator peels off that segment. -/
theorem splitSep_append (sep : Char) (y rest : List Char) (hy : sep ∉ y) :
    splitSep sep (y ++ sep :: rest) = y :: splitSep sep rest := by
  induction y with
  | nil => simp [splitSep]
  | cons c y' ih =>
    have hc : c ≠ sep := by
      intro h
      exact hy (h ▸ List.mem_cons_self c y')
    have hy' : sep ∉ y' := fun h => hy (List.mem_cons_of_mem c h)
    simp only [List.cons_append, splitSep, if_neg hc, List.append_eq]
    rw [ih hy']
    simp

/-- Splitting a separator-free list yields a single segment. -/
theorem splitSep_eq_single (sep : Char) (s : List Char) (hs : sep ∉ s) :
    splitSep sep s = [s] := by
  induction s with
  | nil => simp [splitSep]
  | cons c s' ih =>
    have hc : c ≠ sep := by
      intro h
      exact hs (h ▸ List.mem_cons_self c s')
    have hs' : sep ∉ s' := fun h => hs (List.mem_cons_of_mem c h)
    simp [splitSep, if_neg hc, ih hs']

/-- Constant `EpicApiClient.ARCHIVE_BASE_URL` from `client.py`. -/
def ARCHIVE_BASE_URL : List Char := chars ("https://epic.gsfc.nasa.gov/archive")

/-- Embedding of `EpicApiClient.build_image_url` from `client.py`.  The Python body unpacks
`year, month, day = date.split("-")`, which raises a `ValueError` unless the
split yields exactly three parts; that failure is modelled as `none`. -/
def build_image_url (collection date image_name format_type : List Char) :
    Option (List Char) :=
  match splitSep '-' date with
  | [year, month, day] =>
    let filename :=
      if format_type = chars ("png") then image_name ++ chars (".png")
      else image_name ++ chars (".jpg")
    some (ARCHIVE_BASE_URL ++ chars ("/") ++ collection ++ chars ("/") ++ year
      ++ chars ("/") ++ month ++ chars ("/") ++ day ++ chars ("/")
      ++ format_type ++ chars ("/") ++ filename)
  | _ => none

/-- Claim C2: for a date made of three dash-free segments `y-m-d`, the
archive-URL builder returns exactly
`{archive_root}/{collection}/{y}/{m}/{d}/{format}/{image_base_name}.{ext}`
where the extension is `png` when the format is `png` and `jpg` for every
other format (including `thumbs`, which keeps its path segment). -/
theorem build_image_url_spec (collection image_name format_type y m d : List Char)
    (hy : '-' ∉ y) (hm : '-' ∉ m) (hd : '-' ∉ d) :
    build_image_url collection (y ++ '-' :: (m ++ '-' :: d)) image_name format_type =
      some (ARCHIVE_BASE_URL ++ chars ("/") ++ collection ++ chars ("/") ++ y
        ++ chars ("/") ++ m ++ chars ("/") ++ d ++ chars ("/") ++ format_type
        ++ chars ("/") ++
        (if format_type = chars ("png") then image_name ++ chars (".png")
         else image_name ++ chars (".jpg"))) := by
  have hsplit : splitSep '-' (y ++ '-' :: (m ++ '-' :: d)) = [y, m, d] := by
    rw [splitSep_append '-' y _ hy, splitSep_append '-' m _ hm,
      splitSep_eq_single '-' d hd]
  simp [build_image_url, hsplit]

/-- Witness for C2: the spec's round-trip example, natural collection with
`format_type = "png"` on date `2023-11-05`. -/
theorem build_image_url_spec_witness :
    ('-' ∉ chars ("2023")) ∧ ('-' ∉ chars ("11")) ∧ ('-' ∉ chars ("05")) ∧
    build_image_url (chars ("natural")) (chars ("2023-11-05"))
        (chars ("epic_1b_20231105001234")) (chars ("png")) =
      some (chars
        ("https://epic.gsfc.nasa.gov/archive/natural/2023/11/05/png/epic_1b_20231105001234.png")) := by
  refine ⟨by decide, by decide, by decide, ?_⟩
  have h := build_image_url_spec (chars ("natural")) (chars ("epic_1b_20231105001234"))
    (chars ("png")) (chars ("2023")) (chars ("11")) (chars ("05"))
    (by decide) (by decide) (by decide)
  have e : chars ("2023-11-05") =
      chars ("2023") ++ '-' :: (chars ("11") ++ '-' :: chars ("05")) := by decide
  rw [e, h]
  decide

theorem build_image_url_isSome_iff (collection date image_name format_type : List Char) :
    (build_image_url collection date image_name format_type).isSome = true ↔
      (splitSep '-' date).length = 3 := by
  unfold build_image_url
  match h : splitSep '-' date with
  | [] => simp
  | [a] => simp
  | [a, b] => simp
  | [a, b, c] => simp
  | a :: b :: c :: d :: t => simp

/-- Claim C10: the archive-URL builder succeeds exactly when the date splits
into three dash-separated segments, equivalently when the date contains
exactly two dash characters; any other segment count makes the internal
three-way unpacking fail. -/
theorem build_image_url_total_iff (collection date image_name format_type : List Char) :
    ((build_image_url collection date image_name format_type).isSome = true ↔
      (splitSep '-' date).length = 3) ∧
    ((splitSep '-' date).length = 3 ↔ date.count '-' = 2) := by
  refine ⟨build_image_url_isSome_iff collection date image_name format_type, ?_⟩
  rw [splitSep_length]
  omega

/-- A list of characters matches the anchored regular pattern
`^{pre}\d{14}$` from `models.py`: the fixed collection prefix followed by a
14-digit timestamp and nothing else. -/
def matchesNamePat (pre : List Char) (s : List Char) : Bool :=
  (s.take pre.length == pre) && ((s.drop pre.length).length == 14)
    && (s.drop pre.length).all (fun c => c.isDigit)

/-- The four image collections served by the EPIC API. -/
inductive Collection
  | natural
  | enhanced
  | aerosol
  | cloud
deriving DecidableEq

/-- Per-collection image-name pattern prefixes from
`EpicImageMetadata.validate_image_name_format` in `models.py`. -/
def collectionPat : Collection → List Char
  | .natural => chars ("epic_1b_")
  | .enhanced => chars ("epic_RGB_")
  | .aerosol => chars ("epic_uvai_")
  | .cloud => chars ("epic_cloudfraction_")

/-- Embedding of `EpicImageMetadata.validate_image_name_format` from `models.py`: the
image name must match one of the four collection patterns. -/
def validate_image_name_format (s : List Char) : Bool :=
  matchesNamePat (collectionPat .natural) s
    || matchesNamePat (collectionPat .enhanced) s
    || matchesNamePat (collectionPat .aerosol) s
    || matchesNamePat (collectionPat .cloud) s

/-- Validation of the `image` field by the generic base model
`EpicImageMetadata`: the `Field(min_length=5)` constraint together with the
four-pattern union validator. -/
def base_image_ok (s : List Char) : Bool :=
  (5 ≤ s.length : Bool) && validate_image_name_format s

/-- Validation of the `image` field by a collection-specific variant model
(`NaturalImageMetadata`, `EnhancedImageMetadata`, `AerosolImageMetadata`,
`CloudImageMetadata` in `models.py`): the inherited base validators run
together with the variant's single-pattern validator. -/
def variant_image_ok (c : Collection) (s : List Char) : Bool :=
  base_image_ok s && matchesNamePat (collectionPat c) s

/-- Two anchored prefix-plus-timestamp patterns whose prefixes disagree
cannot both match the same string. -/
theorem matchesNamePat_not_both (p q s : List Char) (hlen : p.length ≤ q.length)
    (hne : q.take p.length ≠ p) :
    ¬(matchesNamePat p s = true ∧ matchesNamePat q s = true) := by
  rintro ⟨hp, hq⟩
  have hp1 : s.take p.length = p := by
    have := (Bool.and_eq_true _ _).mp ((Bool.and_eq_true _ _).mp hp).1
    exact beq_iff_eq.mp this.1
  have hq1 : s.take q.length = q := by
    have := (Bool.and_eq_true _ _).mp ((Bool.and_eq_true _ _).mp hq).1
    exact beq_iff_eq.mp this.1
  apply hne
  calc q.take p.length = (s.take q.length).take p.length := by rw [hq1]
    _ = s.take (min p.length q.length) := by rw [List.take_take]
    _ = s.take p.length := by rw [Nat.min_eq_left hlen]
    _ = p := hp1

/-- The four collection patterns are mutually exclusive: a name matching one
collection's pattern fails every other collection's pattern. -/
theorem collectionPat_excl (c c' : Collection) (hne : c ≠ c') (s : List Char)
    (hc : matchesNamePat (collectionPat c) s = true) :
    matchesNamePat (collectionPat c') s = false := by
  cases hcc : matchesNamePat (collectionPat c') s
  · rfl
  · exfalso
    cases c <;> cases c' <;> simp only [collectionPat] at hc hcc <;>
      first
      | exact hne rfl
      | exact matchesNamePat_not_both _ _ s (by decide) (by decide) ⟨hc, hcc⟩
      | exact matchesNamePat_not_both _ _ s (by decide) (by decide) ⟨hcc, hc⟩

/-- A name matching a collection pattern has length prefix + 14. -/
theorem matchesNamePat_length (p s : List Char) (h : matchesNamePat p s = true) :
    s.length = p.length + 14 := by
  have h1 := (Bool.and_eq_true _ _).mp ((Bool.and_eq_true _ _).mp h).1
  have htake : s.take p.length = p := beq_iff_eq.mp h1.1
  have hdrop : (s.drop p.length).length = 14 := by
    have := h1.2
    simpa using this
  have hlen1 : (s.take p.length).length = min p.length s.length := List.length_take _ _
  rw [htake] at hlen1
  have hlen2 : (s.drop p.length).length = s.length - p.length := List.length_drop _ _
  omega

/-- Claim C4: a name matching collection `c`'s specific pattern validates
under both the collection-specific variant model and the generic base model,
while any other collection's variant model rejects it even though the base
model's four-pattern union check accepts it. -/
theorem variant_vs_base_image_validation (c c' : Collection) (s : List Char)
    (hc : matchesNamePat (collectionPat c) s = true) (hne : c ≠ c') :
    variant_image_ok c s = true ∧ base_image_ok s = true ∧
      variant_image_ok c' s = false := by
  have hlen : s.length = (collectionPat c).length + 14 := matchesNamePat_length _ _ hc
  have hpre : 5 ≤ (collectionPat c).length := by cases c <;> decide
  have hbase : base_image_ok s = true := by
    have hunion : validate_image_name_format s = true := by
      cases c <;> simp [validate_image_name_format, hc]
    simp [base_image_ok, hunion]
    omega
  refine ⟨?_, hbase, ?_⟩
  · simp [variant_image_ok, hbase, hc]
  · simp [variant_image_ok, hbase, collectionPat_excl c c' hne s hc]

/-- Witness for C4: a concrete natural-collection name validates under the
natural variant and base model, and is rejected by the enhanced variant. -/
theorem variant_vs_base_image_validation_witness :
    (matchesNamePat (collectionPat .natural) (chars ("epic_1b_20231105001234")) = true) ∧
    (Collection.natural ≠ Collection.enhanced) ∧
    variant_image_ok .natural (chars ("epic_1b_20231105001234")) = true ∧
    base_image_ok (chars ("epic_1b_20231105001234")) = true ∧
    variant_image_ok .enhanced (chars ("epic_1b_20231105001234")) = false := by
  refine ⟨by decide, by decide, ?_⟩
  have h := variant_vs_base_image_validation .natural .enhanced
    (chars ("epic_1b_20231105001234")) (by decide) (by decide)
  exact ⟨h.1, h.2.1, h.2.2⟩

/-- Model `AttitudeQuaternions` from `models.py`: four components, each constrained
to `[-1, 1]` by its `Field(ge=-1, le=1)` declaration.  Numeric fields are
idealised as rationals. -/
structure AttitudeQuaternions where
  q0 : ℚ
  q1 : ℚ
  q2 : ℚ
  q3 : ℚ
deriving DecidableEq

/-- Construction of an `AttitudeQuaternions` instance: the per-field
`ge=-1 / le=1` bounds run first, then the `validate_quaternion_norm` model
validator requires the squared norm to lie in `[0.95, 1.05]`; any violation
is a validation error, modelled as `none`. -/
def mkAttitudeQuaternions (q0 q1 q2 q3 : ℚ) : Option AttitudeQuaternions :=
  if (-1 ≤ q0 ∧ q0 ≤ 1) ∧ (-1 ≤ q1 ∧ q1 ≤ 1) ∧ (-1 ≤ q2 ∧ q2 ≤ 1)
      ∧ (-1 ≤ q3 ∧ q3 ≤ 1) then
    if 95 / 100 ≤ q0 ^ 2 + q1 ^ 2 + q2 ^ 2 + q3 ^ 2
        ∧ q0 ^ 2 + q1 ^ 2 + q2 ^ 2 + q3 ^ 2 ≤ 105 / 100 then
      some ⟨q0, q1, q2, q3⟩
    else
      none
  else
    none

/-- Claim C3: for components each in `[-1, 1]`, quaternion construction
succeeds exactly when the squared norm lies in `[0.95, 1.05]`; in
particular it fails for concrete quadruples of squared norm `0.80`
(`(2/5, 4/5, 0, 0)`) and `1.20` (`(1, 2/5, 1/5, 0)`). -/
theorem quaternion_norm_validation :
    (∀ q0 q1 q2 q3 : ℚ, -1 ≤ q0 → q0 ≤ 1 → -1 ≤ q1 → q1 ≤ 1 → -1 ≤ q2 → q2 ≤ 1 →
      -1 ≤ q3 → q3 ≤ 1 →
      ((mkAttitudeQuaternions q0 q1 q2 q3).isSome = true ↔
        95 / 100 ≤ q0 ^ 2 + q1 ^ 2 + q2 ^ 2 + q3 ^ 2
          ∧ q0 ^ 2 + q1 ^ 2 + q2 ^ 2 + q3 ^ 2 ≤ 105 / 100)) ∧
    mkAttitudeQuaternions (2 / 5) (4 / 5) 0 0 = none ∧
    mkAttitudeQuaternions 1 (2 / 5) (1 / 5) 0 = none := by
  refine ⟨?_, by rw [mkAttitudeQuaternions, if_pos (by norm_num), if_neg (by norm_num)],
    by rw [mkAttitudeQuaternions, if_pos (by norm_num), if_neg (by norm_num)]⟩
  intro q0 q1 q2 q3 h0a h0b h1a h1b h2a h2b h3a h3b
  rw [mkAttitudeQuaternions, if_pos ⟨⟨h0a, h0b⟩, ⟨h1a, h1b⟩, ⟨h2a, h2b⟩, ⟨h3a, h3b⟩⟩]
  split
  · next h => simpa using h
  · next h => simpa using h

/-- Witness for C3: the unit quaternion `(1, 0, 0, 0)` has squared norm `1`
and is accepted. -/
theorem quaternion_norm_validation_witness :
    (mkAttitudeQuaternions 1 0 0 0).isSome = true := by
  exact (quaternion_norm_validation.1 1 0 0 0 (by norm_num) (by norm_num)
    (by norm_num) (by norm_num) (by norm_num) (by norm_num) (by norm_num)
    (by norm_num)).mpr (by norm_num)

/-- Model `Coordinates2D` from `models.py` (latitude/longitude pair). -/
structure Coordinates2D where
  lat : ℚ
  lon : ℚ
deriving DecidableEq

/-- Model `Position3D` from `models.py` (J2000 position in kilometers). -/
structure Position3D where
  x : ℚ
  y : ℚ
  z : ℚ
deriving DecidableEq

/-- Model `ImageryCoordinates` from `models.py`: the nested `coords` aggregate. -/
structure ImageryCoordinates where
  centroid_coordinates : Coordinates2D
  dscovr_j2000_position : Position3D
  lunar_j2000_position : Position3D
  sun_j2000_position : Position3D
  attitude_quaternions : AttitudeQuaternions
deriving DecidableEq

/-- Absolute tolerance used by `_coordinates_approximately_equal` in
`models.py`. -/
def coordTolerance : ℚ := 1 / 1000000

/-- Embedding of `_coordinates_approximately_equal` on two `Coordinates2D` field dumps:
matching keys, and every numeric component differing by at most the
tolerance (a difference strictly above the tolerance returns `False`). -/
def approxEqCoordinates2D (a b : Coordinates2D) : Bool :=
  (|a.lat - b.lat| ≤ coordTolerance : Bool) && (|a.lon - b.lon| ≤ coordTolerance : Bool)

/-- Embedding of `_coordinates_approximately_equal` on two `Position3D` field dumps. -/
def approxEqPosition3D (a b : Position3D) : Bool :=
  (|a.x - b.x| ≤ coordTolerance : Bool) && (|a.y - b.y| ≤ coordTolerance : Bool)
    && (|a.z - b.z| ≤ coordTolerance : Bool)

/-- Embedding of `_coordinates_approximately_equal` on two `AttitudeQuaternions` field
dumps. -/
def approxEqQuaternions (a b : AttitudeQuaternions) : Bool :=
  (|a.q0 - b.q0| ≤ coordTolerance : Bool) && (|a.q1 - b.q1| ≤ coordTolerance : Bool)
    && (|a.q2 - b.q2| ≤ coordTolerance : Bool) && (|a.q3 - b.q3| ≤ coordTolerance : Bool)

/-- The coordinate payload of an `EpicImageMetadata` record: the five direct
coordinate fields together with the duplicated nested `coords` aggregate. -/
structure EpicCoordFields where
  centroid_coordinates : Coordinates2D
  dscovr_j2000_position : Position3D
  lunar_j2000_position : Position3D
  sun_j2000_position : Position3D
  attitude_quaternions : AttitudeQuaternions
  coords : ImageryCoordinates

/-- Embedding of `EpicImageMetadata.validate_coordinate_consistency` from `models.py`:
for each duplicated field, raise a validation error unless the direct value
equals its `coords` counterpart or the two are approximately equal. -/
def validate_coordinate_consistency (m : EpicCoordFields) : Bool :=
  ((m.centroid_coordinates == m.coords.centroid_coordinates)
      || approxEqCoordinates2D m.centroid_coordinates m.coords.centroid_coordinates)
    && ((m.dscovr_j2000_position == m.coords.dscovr_j2000_position)
      || approxEqPosition3D m.dscovr_j2000_position m.coords.dscovr_j2000_position)
    && ((m.lunar_j2000_position == m.coords.lunar_j2000_position)
      || approxEqPosition3D m.lunar_j2000_position m.coords.lunar_j2000_position)
    && ((m.sun_j2000_position == m.coords.sun_j2000_position)
      || approxEqPosition3D m.sun_j2000_position m.coords.sun_j2000_position)
    && ((m.attitude_quaternions == m.coords.attitude_quaternions)
      || approxEqQuaternions m.attitude_quaternions m.coords.attitude_quaternions)

theorem eq_or_approx2D (a b : Coordinates2D) :
    ((a == b) || approxEqCoordinates2D a b) = approxEqCoordinates2D a b := by
  cases h : a == b
  · simp
  · have : a = b := beq_iff_eq.mp h
    subst this
    simp [approxEqCoordinates2D, coordTolerance]

theorem eq_or_approx3D (a b : Position3D) :
    ((a == b) || approxEqPosition3D a b) = approxEqPosition3D a b := by
  cases h : a == b
  · simp
  · have : a = b := beq_iff_eq.mp h
    subst this
    simp [approxEqPosition3D, coordTolerance]

theorem eq_or_approxQ (a b : AttitudeQuaternions) :
    ((a == b) || approxEqQuaternions a b) = approxEqQuaternions a b := by
  cases h : a == b
  · simp
  · have : a = b := beq_iff_eq.mp h
    subst this
    simp [approxEqQuaternions, coordTolerance]

/-- Claim C5: a record carrying both the direct coordinate fields and the
nested `coords` aggregate passes the coordinate-consistency validation
exactly when every numeric component of each direct field differs from its
counterpart in the aggregate by at most `1e-6` (so a difference of exactly
`1e-6` is accepted, and any component differing by strictly more is a
validation failure). -/
theorem coordinate_consistency_iff (m : EpicCoordFields) :
    validate_coordinate_consistency m = true ↔
      (|m.centroid_coordinates.lat - m.coords.centroid_coordinates.lat| ≤ coordTolerance
        ∧ |m.centroid_coordinates.lon - m.coords.centroid_coordinates.lon| ≤ coordTolerance
        ∧ |m.dscovr_j2000_position.x - m.coords.dscovr_j2000_position.x| ≤ coordTolerance
        ∧ |m.dscovr_j2000_position.y - m.coords.dscovr_j2000_position.y| ≤ coordTolerance
        ∧ |m.dscovr_j2000_position.z - m.coords.dscovr_j2000_position.z| ≤ coordTolerance
        ∧ |m.lunar_j2000_position.x - m.coords.lunar_j2000_position.x| ≤ coordTolerance
        ∧ |m.lunar_j2000_position.y - m.coords.lunar_j2000_position.y| ≤ coordTolerance
        ∧ |m.lunar_j2000_position.z - m.coords.lunar_j2000_position.z| ≤ coordTolerance
        ∧ |m.sun_j2000_position.x - m.coords.sun_j2000_position.x| ≤ coordTolerance
        ∧ |m.sun_j2000_position.y - m.coords.sun_j2000_position.y| ≤ coordTolerance
        ∧ |m.sun_j2000_position.z - m.coords.sun_j2000_position.z| ≤ coordTolerance
        ∧ |m.attitude_quaternions.q0 - m.coords.attitude_quaternions.q0| ≤ coordTolerance
        ∧ |m.attitude_quaternions.q1 - m.coords.attitude_quaternions.q1| ≤ coordTolerance
        ∧ |m.attitude_quaternions.q2 - m.coords.attitude_quaternions.q2| ≤ coordTolerance
        ∧ |m.attitude_quaternions.q3 - m.coords.attitude_quaternions.q3| ≤ coordTolerance) := by
  rw [validate_coordinate_consistency, eq_or_approx2D, eq_or_approx3D, eq_or_approx3D,
    eq_or_approx3D, eq_or_approxQ]
  simp only [approxEqCoordinates2D, approxEqPosition3D, approxEqQuaternions,
    Bool.and_eq_true, decide_eq_true_eq]
  tauto

/-- One raw metadata record as consumed by the orchestrators: its `image`
base name and its `date` field. -/
structure ImageRecord where
  image : List Char
  date : List Char
deriving DecidableEq

/-- Observable side effects of an orchestrator run: metadata queries, binary
fetch attempts, local file writes, remote-store upload attempts and
completions, and local-file deletions. -/
inductive Event
  | metaQuery (date : List Char)
  | fetchQuery (url : List Char)
  | wroteFile (path : List Char)
  | uploadQuery (key : List Char)
  | uploadDone (key : List Char)
  | unlinkQuery (path : List Char)
deriving DecidableEq

/-- The external world an orchestrator run interacts with: metadata service
responses per date, binary-fetch outcomes per URL, remote-store upload
outcomes per key, and local-delete outcomes per path.  `Except.error`
models the corresponding Python exception. -/
structure Env where
  meta : List Char → Except (List Char) (List ImageRecord)
  fetch : List Char → Except (List Char) (List Char)
  upload : List Char → Except (List Char) Unit
  unlink : List Char → Except (List Char) Unit

/-- Outcome of processing one image: downloaded/uploaded increments, the
emitted events, and whether an uncaught exception escaped the per-image
code (aborting the enclosing loop). -/
structure StepOut where
  dl : Nat
  ul : Nat
  trace : List Event
  aborted : Bool
deriving DecidableEq

/-- Python `date_str.replace("-", "/")`. -/
def dashToSlash (s : List Char) : List Char :=
  s.map (fun c => if c = '-' then '/' else c)

/-- Arguments of `epic_s3_downloader.main` after setup (argument validation
and the S3 connectivity check). -/
structure SdArgs where
  collection : List Char
  bucket : Option (List Char)
  local_dir : List Char
  local_only : Bool
  keep_local : Bool

/-- Filename used by `epic_s3_downloader.main`: always the image's own base
name plus `.png` (line `filename = f"{image.image}.png"`). -/
def sdFilename (img : ImageRecord) : List Char := img.image ++ chars (".png")

/-- Local path used by `epic_s3_downloader.main`. -/
def sdLocalPath (args : SdArgs) (date_str : List Char) (img : ImageRecord) : List Char :=
  args.local_dir ++ chars ("/") ++ args.collection ++ chars ("/")
    ++ dashToSlash date_str ++ chars ("/") ++ sdFilename img

/-- S3 key used by `epic_s3_downloader.main`. -/
def sdS3Key (args : SdArgs) (date_str : List Char) (img : ImageRecord) : List Char :=
  chars ("nasa-epic/") ++ args.collection ++ chars ("/")
    ++ dashToSlash date_str ++ chars ("/") ++ sdFilename img

/-- Per-image step of `epic_s3_downloader.main`.  The inner `try` catches
only `requests.RequestException`, so a binary-fetch failure is isolated,
while an S3-upload failure or a local-delete failure escapes the image loop
(`aborted = true`) and is only caught by the per-date handler.  A
`ValueError` from URL construction likewise escapes. -/
def sdProcessImage (env : Env) (args : SdArgs) (date_str : List Char)
    (img : ImageRecord) : StepOut :=
  match build_image_url args.collection date_str img.image (chars ("png")) with
  | none => ⟨0, 0, [], true⟩
  | some image_url =>
    match env.fetch image_url with
    | .error _ => ⟨0, 0, [.fetchQuery image_url], false⟩
    | .ok _ =>
      if !args.local_only && args.bucket.isSome then
        match env.upload (sdS3Key args date_str img) with
        | .error _ =>
          ⟨1, 0, [.fetchQuery image_url, .wroteFile (sdLocalPath args date_str img),
            .uploadQuery (sdS3Key args date_str img)], true⟩
        | .ok _ =>
          if !args.keep_local then
            match env.unlink (sdLocalPath args date_str img) with
            | .error _ =>
              ⟨1, 1, [.fetchQuery image_url, .wroteFile (sdLocalPath args date_str img),
                .uploadQuery (sdS3Key args date_str img),
                .uploadDone (sdS3Key args date_str img),
                .unlinkQuery (sdLocalPath args date_str img)], true⟩
            | .ok _ =>
              ⟨1, 1, [.fetchQuery image_url, .wroteFile (sdLocalPath args date_str img),
                .uploadQuery (sdS3Key args date_str img),
                .uploadDone (sdS3Key args date_str img),
                .unlinkQuery (sdLocalPath args date_str img)], false⟩
          else
            ⟨1, 1, [.fetchQuery image_url, .wroteFile (sdLocalPath args date_str img),
              .uploadQuery (sdS3Key args date_str img),
              .uploadDone (sdS3Key args date_str img)], false⟩
      else
        ⟨1, 0, [.fetchQuery image_url, .wroteFile (sdLocalPath args date_str img)], false⟩

/-- The image loop of `epic_s3_downloader.main` for one date: as soon as a
step aborts, the remaining images of the date are skipped (the escaped
exception is caught by the per-date `except Exception`). -/
def sdProcessImages (env : Env) (args : SdArgs) (date_str : List Char) :
    List ImageRecord → Nat × Nat × List Event
  | [] => (0, 0, [])
  | img :: rest =>
    let r := sdProcessImage env args date_str img
    if r.aborted then (r.dl, r.ul, r.trace)
    else
      let rs := sdProcessImages env args date_str rest
      (r.dl + rs.1, r.ul + rs.2.1, r.trace ++ rs.2.2)

/-- One date of `epic_s3_downloader.main`: fetch metadata (a failure there is
caught by the per-date handler), then process the returned images; an empty
response is not an error and contributes nothing. -/
def sdProcessDate (env : Env) (args : SdArgs) (date_str : List Char) :
    Nat × Nat × List Event :=
  match env.meta date_str with
  | .error _ => (0, 0, [.metaQuery date_str])
  | .ok images =>
    let r := sdProcessImages env args date_str images
    (r.1, r.2.1, .metaQuery date_str :: r.2.2)

/-- The date loop of `epic_s3_downloader.main`: every date in the range is
processed and the per-date counters are accumulated. -/
def sdRunDates (env : Env) (args : SdArgs) : List (List Char) → Nat × Nat × List Event
  | [] => (0, 0, [])
  | d :: rest =>
    let r := sdProcessDate env args d
    let rs := sdRunDates env args rest
    (r.1 + rs.1, r.2.1 + rs.2.1, r.2.2 ++ rs.2.2)

/-- Arguments of `cli.download_images` after its setup checks. -/
structure CliArgs where
  collection : List Char
  bucket : Option (List Char)
  local_dir : List Char
  local_only : Bool
  has_boto3 : Bool

/-- Python `image_name.split("_")[-1]`: the segment after the last
underscore. -/
def lastSeg (s : List Char) : List Char := (splitSep '_' s).getLastD []

/-- Filename built by `cli.download_images`: reconstructed
`epic_cloudfraction_...` / `epic_aerosol_...` names for the cloud and
aerosol collections, the image's own base name otherwise. -/
def cliFilename (collection image_name : List Char) : List Char :=
  if collection = chars ("cloud") then
    chars ("epic_cloudfraction_") ++ lastSeg image_name ++ chars (".png")
  else if collection = chars ("aerosol") then
    chars ("epic_aerosol_") ++ lastSeg image_name ++ chars (".png")
  else
    image_name ++ chars (".png")

/-- Local file path used by `cli.download_images`. -/
def cliLocalPath (args : CliArgs) (date_str : List Char) (img : ImageRecord) : List Char :=
  args.local_dir ++ chars ("/") ++ args.collection ++ chars ("/")
    ++ dashToSlash date_str ++ chars ("/") ++ cliFilename args.collection img.image

/-- S3 key used by `cli.download_images`. -/
def cliS3Key (args : CliArgs) (date_str : List Char) (img : ImageRecord) : List Char :=
  chars ("nasa-epic/") ++ args.collection ++ chars ("/")
    ++ dashToSlash date_str ++ chars ("/") ++ cliFilename args.collection img.image

/-- Per-image step of `cli.download_images`.  The URL is built before the
`try` block (an error there escapes the whole command); the surrounding
`try/except Exception` isolates fetch failures, and the nested
`try/except Exception` around the upload isolates upload failures.  Note the
URL is built from the image record's own `date` field. -/
def cliProcessImage (env : Env) (args : CliArgs) (date_str : List Char)
    (img : ImageRecord) : StepOut :=
  match build_image_url args.collection img.date img.image (chars ("png")) with
  | none => ⟨0, 0, [], true⟩
  | some image_url =>
    match env.fetch image_url with
    | .error _ => ⟨0, 0, [.fetchQuery image_url], false⟩
    | .ok _ =>
      if !args.local_only && args.bucket.isSome && args.has_boto3 then
        match env.upload (cliS3Key args date_str img) with
        | .error _ =>
          ⟨1, 0, [.fetchQuery image_url, .wroteFile (cliLocalPath args date_str img),
            .uploadQuery (cliS3Key args date_str img)], false⟩
        | .ok _ =>
          ⟨1, 1, [.fetchQuery image_url, .wroteFile (cliLocalPath args date_str img),
            .uploadQuery (cliS3Key args date_str img),
            .uploadDone (cliS3Key args date_str img)], false⟩
      else
        ⟨1, 0, [.fetchQuery image_url, .wroteFile (cliLocalPath args date_str img)], false⟩

/-- The image loop of `cli.download_images`: an aborting step crashes the
whole command (`Except.error` carrying the events emitted so far); otherwise
outcomes accumulate. -/
def cliProcessImages (env : Env) (args : CliArgs) (date_str : List Char) :
    List ImageRecord → Except (List Event) (Nat × Nat × List Event)
  | [] => .ok (0, 0, [])
  | img :: rest =>
    let r := cliProcessImage env args date_str img
    if r.aborted then .error r.trace
    else
      match cliProcessImages env args date_str rest with
      | .error tr => .error (r.trace ++ tr)
      | .ok rs => .ok (r.dl + rs.1, r.ul + rs.2.1, r.trace ++ rs.2.2)

/-- Embedding of `cli.download_images` for its single date: the metadata request is not
wrapped in a `try`, so its failure propagates; an empty image list returns
without error and without counting anything. -/
def cliRun (env : Env) (args : CliArgs) (date_str : List Char) :
    Except (List Event) (Nat × Nat × List Event) :=
  match env.meta date_str with
  | .error _ => .error [.metaQuery date_str]
  | .ok images =>
    if images.isEmpty then .ok (0, 0, [.metaQuery date_str])
    else
      match cliProcessImages env args date_str images with
      | .error tr => .error (.metaQuery date_str :: tr)
      | .ok rs => .ok (rs.1, rs.2.1, .metaQuery date_str :: rs.2.2)

/-- Events emitted by a CLI run, whether or not it crashed. -/
def cliTrace : Except (List Event) (Nat × Nat × List Event) → List Event
  | .error tr => tr
  | .ok rs => rs.2.2

/-- Recognizer for remote-store upload invocations. -/
def isUploadQuery : Event → Bool
  | .uploadQuery _ => true
  | _ => false

theorem sdProcessImage_local_only (env : Env) (args : SdArgs) (date_str : List Char)
    (img : ImageRecord) (h : args.local_only = true) :
    (sdProcessImage env args date_str img).trace.filter isUploadQuery = [] := by
  unfold sdProcessImage
  cases build_image_url args.collection date_str img.image (chars ("png")) with
  | none => simp
  | some u =>
    cases hf : env.fetch u with
    | error e => simp [hf, isUploadQuery]
    | ok c => simp [hf, h, isUploadQuery]

theorem sdProcessImages_local_only (env : Env) (args : SdArgs) (date_str : List Char)
    (h : args.local_only = true) (images : List ImageRecord) :
    (sdProcessImages env args date_str images).2.2.filter isUploadQuery = [] := by
  induction images with
  | nil => simp [sdProcessImages]
  | cons img rest ih =>
    simp only [sdProcessImages]
    split
    · exact sdProcessImage_local_only env args date_str img h
    · simp [List.filter_append, sdProcessImage_local_only env args date_str img h, ih]

theorem sdRunDates_local_only (env : Env) (args : SdArgs)
    (h : args.local_only = true) (dates : List (List Char)) :
    (sdRunDates env args dates).2.2.filter isUploadQuery = [] := by
  induction dates with
  | nil => simp [sdRunDates]
  | cons d rest ih =>
    have hdate : (sdProcessDate env args d).2.2.filter isUploadQuery = [] := by
      unfold sdProcessDate
      cases env.meta d with
      | error e => simp [isUploadQuery]
      | ok images => simp [isUploadQuery, sdProcessImages_local_only env args d h images]
    simp [sdRunDates, List.filter_append, hdate, ih]

theorem cliProcessImage_local_only (env : Env) (args : CliArgs) (date_str : List Char)
    (img : ImageRecord) (h : args.local_only = true) :
    (cliProcessImage env args date_str img).trace.filter isUploadQuery = [] := by
  unfold cliProcessImage
  cases build_image_url args.collection img.date img.image (chars ("png")) with
  | none => simp
  | some u =>
    cases hf : env.fetch u with
    | error e => simp [hf, isUploadQuery]
    | ok c => simp [hf, h, isUploadQuery]

theorem cliProcessImages_local_only (env : Env) (args : CliArgs) (date_str : List Char)
    (h : args.local_only = true) (images : List ImageRecord) :
    (cliTrace (cliProcessImages env args date_str images)).filter isUploadQuery = [] := by
  induction images with
  | nil => simp [cliProcessImages, cliTrace]
  | cons img rest ih =>
    simp only [cliProcessImages]
    split
    · exact cliProcessImage_local_only env args date_str img h
    · cases hrest : cliProcessImages env args date_str rest with
      | error tr =>
        rw [hrest] at ih
        simp only [cliTrace] at ih ⊢
        rw [List.filter_append, ih, cliProcessImage_local_only env args date_str img h]
        rfl
      | ok rs =>
        rw [hrest] at ih
        simp only [cliTrace] at ih ⊢
        rw [List.filter_append, ih, cliProcessImage_local_only env args date_str img h]
        rfl

/-- Claim C6: with `local_only` set, neither orchestrator ever invokes the
remote-store upload operation, whatever the bucket, collection, dates and
remaining parameters are. -/
theorem local_only_never_uploads (env : Env) (sdargs : SdArgs) (cliargs : CliArgs)
    (dates : List (List Char)) (d : List Char)
    (h1 : sdargs.local_only = true) (h2 : cliargs.local_only = true) :
    (sdRunDates env sdargs dates).2.2.filter isUploadQuery = [] ∧
    (cliTrace (cliRun env cliargs d)).filter isUploadQuery = [] := by
  refine ⟨sdRunDates_local_only env sdargs h1 dates, ?_⟩
  unfold cliRun
  cases env.meta d with
  | error e => simp [cliTrace, isUploadQuery]
  | ok images =>
    by_cases himages : images.isEmpty
    · simp [himages, cliTrace, isUploadQuery]
    · have h := cliProcessImages_local_only env cliargs d h2 images
      cases hrun : cliProcessImages env cliargs d images with
      | error tr =>
        rw [hrun] at h
        simp [himages, hrun, cliTrace, isUploadQuery]
        simpa [cliTrace] using h
      | ok rs =>
        rw [hrun] at h
        simp [himages, hrun, cliTrace, isUploadQuery]
        simpa [cliTrace] using h

/-- An environment in which every operation succeeds and each date carries a
single natural-color image; used to instantiate the universally quantified
theorems. -/
def envAllOk : Env where
  meta := fun _ => .ok [⟨chars ("epic_1b_20231105001234"), chars ("2023-11-05 00:12:34")⟩]
  fetch := fun _ => .ok (chars ("binary"))
  upload := fun _ => .ok ()
  unlink := fun _ => .ok ()

/-- Concrete local-only script arguments. -/
def sdArgsLocal : SdArgs :=
  ⟨chars ("natural"), some (chars ("bkt")), chars ("imgs"), true, false⟩

/-- Concrete local-only CLI arguments. -/
def cliArgsLocal : CliArgs :=
  ⟨chars ("natural"), some (chars ("bkt")), chars ("imgs"), true, true⟩

/-- Witness for C6 at a concrete environment, argument set and date range. -/
theorem local_only_never_uploads_witness :
    (sdRunDates envAllOk sdArgsLocal [chars ("2023-11-05")]).2.2.filter isUploadQuery = [] ∧
    (cliTrace (cliRun envAllOk cliArgsLocal (chars ("2023-11-05")))).filter isUploadQuery = [] :=
  local_only_never_uploads envAllOk sdArgsLocal cliArgsLocal [chars ("2023-11-05")]
    (chars ("2023-11-05")) rfl rfl

/-- Claim C8: a date for which the metadata service returns zero images
contributes nothing to either counter, is not an error, and the run
proceeds with the remaining dates; the CLI command likewise returns
successfully with zero counts. -/
theorem empty_date_skipped (env : Env) (sdargs : SdArgs) (cliargs : CliArgs)
    (d : List Char) (rest : List (List Char)) (h : env.meta d = .ok []) :
    (sdRunDates env sdargs (d :: rest)).1 = (sdRunDates env sdargs rest).1 ∧
    (sdRunDates env sdargs (d :: rest)).2.1 = (sdRunDates env sdargs rest).2.1 ∧
    cliRun env cliargs d = .ok (0, 0, [.metaQuery d]) := by
  have hdate : sdProcessDate env sdargs d = (0, 0, [.metaQuery d]) := by
    unfold sdProcessDate
    rw [h]
    rfl
  refine ⟨?_, ?_, ?_⟩
  · simp [sdRunDates, hdate]
  · simp [sdRunDates, hdate]
  · unfold cliRun
    rw [h]
    rfl

/-- An environment whose metadata service returns an empty image list for
every date. -/
def envEmpty : Env where
  meta := fun _ => .ok []
  fetch := fun _ => .ok (chars ("binary"))
  upload := fun _ => .ok ()
  unlink := fun _ => .ok ()

/-- Witness for C8 at a concrete empty-metadata environment. -/
theorem empty_date_skipped_witness :
    (sdRunDates envEmpty sdArgsLocal [chars ("2023-11-05"), chars ("2023-11-06")]).1 =
      (sdRunDates envEmpty sdArgsLocal [chars ("2023-11-06")]).1 ∧
    (sdRunDates envEmpty sdArgsLocal [chars ("2023-11-05"), chars ("2023-11-06")]).2.1 =
      (sdRunDates envEmpty sdArgsLocal [chars ("2023-11-06")]).2.1 ∧
    cliRun envEmpty cliArgsLocal (chars ("2023-11-05")) =
      .ok (0, 0, [.metaQuery (chars ("2023-11-05"))]) :=
  empty_date_skipped envEmpty sdArgsLocal cliArgsLocal (chars ("2023-11-05"))
    [chars ("2023-11-06")] rfl

/-- The last segment produced by splitting at a separator that occurs in the
input is the final separator-free block. -/
theorem splitSep_getLast? (sep : Char) (p t : List Char) (ht : sep ∉ t) :
    (splitSep sep (p ++ sep :: t)).getLast? = some t := by
  induction p with
  | nil =>
    simp only [List.nil_append, splitSep, if_pos rfl, splitSep_eq_single sep t ht]
    rfl
  | cons c p' ih =>
    have hr2 : 2 ≤ (splitSep sep (p' ++ sep :: t)).length := by
      rw [splitSep_length]
      have hcount : 1 ≤ List.count sep (p' ++ sep :: t) := by
        rw [List.count_append, List.count_cons]
        simp
        omega
      omega
    rcases hsp : splitSep sep (p' ++ sep :: t) with _ | ⟨a, _ | ⟨b, r2⟩⟩
    · rw [hsp] at hr2
      simp at hr2
    · rw [hsp] at hr2
      simp at hr2
    · rw [hsp] at ih
      rw [List.cons_append]
      simp only [splitSep, hsp]
      split
      · rw [List.getLast?_cons_cons]
        rw [← List.getLast?_cons_cons (a := a)]
        exact ih
      · simp only [List.headI, List.tail_cons]
        rw [List.getLast?_cons_cons]
        rw [← List.getLast?_cons_cons (a := a)]
        exact ih

/-- Python `name.split("_")[-1]` on a name of the shape
`{stem}_{t}` with underscore-free `t` returns `t`. -/
theorem lastSeg_append (p t : List Char) (ht : '_' ∉ t) :
    lastSeg (p ++ '_' :: t) = t := by
  rw [lastSeg, List.getLastD_eq_getLast?, splitSep_getLast? '_' p t ht]
  rfl

/-- Claim C7: the stored/uploaded filename is the image's own base name plus
`.png` for the natural and enhanced collections (in both orchestrators), and
for the aerosol and cloud collections it has the shape
`{fixed stem}_{trailing timestamp segment}.png`: the CLI reconstructs
`epic_aerosol_...` / `epic_cloudfraction_...` from the segment after the
last underscore of the base name, while the script keeps the base name,
which for pattern-valid names equals `epic_uvai_{t}.png` /
`epic_cloudfraction_{t}.png`. -/
theorem filename_derivation (name p ts dt : List Char) (img : ImageRecord)
    (ht : '_' ∉ ts) :
    cliFilename (chars ("natural")) name = name ++ chars (".png") ∧
    cliFilename (chars ("enhanced")) name = name ++ chars (".png") ∧
    cliFilename (chars ("aerosol")) (p ++ '_' :: ts)
      = chars ("epic_aerosol_") ++ ts ++ chars (".png") ∧
    cliFilename (chars ("cloud")) (p ++ '_' :: ts)
      = chars ("epic_cloudfraction_") ++ ts ++ chars (".png") ∧
    sdFilename img = img.image ++ chars (".png") ∧
    sdFilename ⟨chars ("epic_uvai_") ++ ts, dt⟩
      = chars ("epic_uvai_") ++ (ts ++ chars (".png")) ∧
    sdFilename ⟨chars ("epic_cloudfraction_") ++ ts, dt⟩
      = chars ("epic_cloudfraction_") ++ (ts ++ chars (".png")) := by
  refine ⟨?_, ?_, ?_, ?_, rfl, ?_, ?_⟩
  · rw [cliFilename, if_neg (by decide), if_neg (by decide)]
  · rw [cliFilename, if_neg (by decide), if_neg (by decide)]
  · rw [cliFilename, if_neg (by decide), if_pos rfl, lastSeg_append p ts ht]
  · rw [cliFilename, if_pos rfl, lastSeg_append p ts ht]
  · rw [sdFilename]
    exact List.append_assoc _ _ _
  · rw [sdFilename]
    exact List.append_assoc _ _ _

/-- Witness for C7 on concrete image names with the canonical 14-digit
timestamp segment. -/
theorem filename_derivation_witness :
    ('_' ∉ chars ("20231105001234")) ∧
    cliFilename (chars ("natural")) (chars ("epic_1b_20231105001234"))
      = chars ("epic_1b_20231105001234") ++ chars (".png") ∧
    cliFilename (chars ("aerosol")) (chars ("epic_uvai") ++ '_' :: chars ("20231105001234"))
      = chars ("epic_aerosol_") ++ chars ("20231105001234") ++ chars (".png") ∧
    sdFilename ⟨chars ("epic_uvai_") ++ chars ("20231105001234"), chars ("2023-11-05")⟩
      = chars ("epic_uvai_") ++ (chars ("20231105001234") ++ chars (".png")) := by
  have h := filename_derivation (chars ("epic_1b_20231105001234")) (chars ("epic_uvai"))
    (chars ("20231105001234")) (chars ("2023-11-05"))
    ⟨chars ("epic_1b_20231105001234"), chars ("2023-11-05")⟩ (by decide)
  exact ⟨by decide, h.1, h.2.2.1, h.2.2.2.2.2.1⟩

/-- Success recognizer for an embedded Python operation outcome. -/
def exceptOk {e a : Type} : Except e a → Bool
  | .ok _ => true
  | .error _ => false

/-- The runs of `epic_s3_downloader.main` in which no aborting store
operation occurs: either the run is local-only (so no store operation is
ever attempted), or every remote-store upload and every local delete
succeeds.  A failing store operation is itself the carved-out per-date
abort case, so these runs are exactly the ones the fetch-isolation part of
the amended claim is about. -/
def noStoreFailures (env : Env) (args : SdArgs) : Prop :=
  args.local_only = true ∨
    ((∀ k, exceptOk (env.upload k) = true) ∧ (∀ p, exceptOk (env.unlink p) = true))

theorem sdProcessImage_fetch_ok (env : Env) (args : SdArgs) (d : List Char)
    (img : ImageRecord) (u c : List Char) (hns : noStoreFailures env args)
    (hb : build_image_url args.collection d img.image (chars ("png")) = some u)
    (hf : env.fetch u = .ok c) :
    (sdProcessImage env args d img).dl = 1 ∧
    (sdProcessImage env args d img).aborted = false := by
  unfold sdProcessImage
  simp only [hb, hf]
  rcases hns with hlocal | ⟨hU, hD⟩
  · simp [hlocal]
  · by_cases hcond : (!args.local_only && args.bucket.isSome) = true
    · rw [if_pos hcond]
      have hu2 := hU (sdS3Key args d img)
      cases hup : env.upload (sdS3Key args d img) with
      | error e2 =>
        rw [hup] at hu2
        simp [exceptOk] at hu2
      | ok v =>
        simp only [hup]
        by_cases hk : (!args.keep_local) = true
        · rw [if_pos hk]
          have hd2 := hD (sdLocalPath args d img)
          cases hun : env.unlink (sdLocalPath args d img) with
          | error e3 =>
            rw [hun] at hd2
            simp [exceptOk] at hd2
          | ok w => simp [hun]
        · rw [if_neg hk]
          exact ⟨rfl, rfl⟩
    · rw [if_neg hcond]
      exact ⟨rfl, rfl⟩

theorem sdProcessImage_not_aborted (env : Env) (args : SdArgs) (d : List Char)
    (img : ImageRecord) (hns : noStoreFailures env args)
    (hd : (splitSep '-' d).length = 3) :
    (sdProcessImage env args d img).aborted = false := by
  have hsome :=
    (build_image_url_isSome_iff args.collection d img.image (chars ("png"))).mpr hd
  obtain ⟨u, hu⟩ := Option.isSome_iff_exists.mp hsome
  cases hf : env.fetch u with
  | error e =>
    unfold sdProcessImage
    simp [hu, hf]
  | ok c => exact (sdProcessImage_fetch_ok env args d img u c hns hu hf).2

theorem sdProcessImages_append (env : Env) (args : SdArgs) (d : List Char)
    (hns : noStoreFailures env args) (hd : (splitSep '-' d).length = 3)
    (l1 l2 : List ImageRecord) :
    sdProcessImages env args d (l1 ++ l2) =
      ((sdProcessImages env args d l1).1 + (sdProcessImages env args d l2).1,
       (sdProcessImages env args d l1).2.1 + (sdProcessImages env args d l2).2.1,
       (sdProcessImages env args d l1).2.2 ++ (sdProcessImages env args d l2).2.2) := by
  induction l1 with
  | nil => simp [sdProcessImages]
  | cons img l1' ih =>
    have hna := sdProcessImage_not_aborted env args d img hns hd
    rw [List.cons_append]
    simp only [sdProcessImages, hna]
    rw [ih]
    simp [Nat.add_assoc, List.append_assoc]

theorem cliProcessImage_not_aborted (env : Env) (args : CliArgs) (d : List Char)
    (img : ImageRecord) (hd : (splitSep '-' img.date).length = 3) :
    (cliProcessImage env args d img).aborted = false := by
  have hsome :=
    (build_image_url_isSome_iff args.collection img.date img.image (chars ("png"))).mpr hd
  obtain ⟨u, hu⟩ := Option.isSome_iff_exists.mp hsome
  unfold cliProcessImage
  simp only [hu]
  cases hf : env.fetch u with
  | error e => simp [hf]
  | ok c =>
    simp only [hf]
    split
    · cases env.upload (cliS3Key args d img) <;> rfl
    · rfl

theorem cliProcessImages_ok (env : Env) (args : CliArgs) (d : List Char)
    (l : List ImageRecord) (hwf : ∀ img ∈ l, (splitSep '-' img.date).length = 3) :
    ∃ r, cliProcessImages env args d l = .ok r := by
  induction l with
  | nil => exact ⟨(0, 0, []), rfl⟩
  | cons img rest ih =>
    have hna := cliProcessImage_not_aborted env args d img
      (hwf img (List.mem_cons_self img rest))
    obtain ⟨r, hr⟩ := ih (fun i hi => hwf i (List.mem_cons_of_mem img hi))
    refine ⟨((cliProcessImage env args d img).dl + r.1,
      (cliProcessImage env args d img).ul + r.2.1,
      (cliProcessImage env args d img).trace ++ r.2.2), ?_⟩
    simp [cliProcessImages, hna, hr]

theorem cliProcessImages_append (env : Env) (args : CliArgs) (d : List Char)
    (l1 l2 : List ImageRecord)
    (hwf : ∀ img ∈ l1 ++ l2, (splitSep '-' img.date).length = 3) :
    ∃ r1 r2, cliProcessImages env args d l1 = .ok r1 ∧
      cliProcessImages env args d l2 = .ok r2 ∧
      cliProcessImages env args d (l1 ++ l2) =
        .ok (r1.1 + r2.1, r1.2.1 + r2.2.1, r1.2.2 ++ r2.2.2) := by
  obtain ⟨r2, hr2⟩ := cliProcessImages_ok env args d l2
    (fun i hi => hwf i (List.mem_append_right l1 hi))
  induction l1 with
  | nil =>
    refine ⟨(0, 0, []), r2, rfl, hr2, ?_⟩
    simpa [cliProcessImages] using hr2
  | cons img l1' ih =>
    have hna := cliProcessImage_not_aborted env args d img
      (hwf img (List.mem_cons_self img _))
    obtain ⟨s1, s2, hs1, hs2, hs12⟩ := ih (fun i hi => by
      rcases List.mem_append.mp hi with hl | hr
      · exact hwf i (List.mem_cons_of_mem img (List.mem_append_left l2 hl))
      · exact hwf i (List.mem_cons_of_mem img (List.mem_append_right l1' hr)))
    refine ⟨((cliProcessImage env args d img).dl + s1.1,
      (cliProcessImage env args d img).ul + s1.2.1,
      (cliProcessImage env args d img).trace ++ s1.2.2), s2, ?_, hs2, ?_⟩
    · simp [cliProcessImages, hna, hs1]
    · rw [List.cons_append]
      simp only [cliProcessImages, hna, Bool.false_eq_true, if_false, hs12]
      simp [Nat.add_assoc, List.append_assoc]

/-- Concrete script arguments for the counterexample run: uploading to a
bucket, keeping local copies. -/
def sdArgsCX : SdArgs :=
  ⟨chars ("natural"), some (chars ("bkt")), chars ("imgs"), false, true⟩

/-- Three image records for the counterexample date. -/
def cxImage1 : ImageRecord :=
  ⟨chars ("epic_1b_20231105000001"), chars ("2023-11-05 00:00:01")⟩

def cxImage2 : ImageRecord :=
  ⟨chars ("epic_1b_20231105000002"), chars ("2023-11-05 00:00:02")⟩

def cxImage3 : ImageRecord :=
  ⟨chars ("epic_1b_20231105000003"), chars ("2023-11-05 00:00:03")⟩

/-- Counterexample environment: metadata returns three images for the date,
every binary fetch succeeds, and exactly one single-image operation fails —
the remote-store upload of the first image's key.  Every other upload and
every delete would succeed. -/
def envCX : Env where
  meta := fun d => if d = chars ("2023-11-05") then .ok [cxImage1, cxImage2, cxImage3]
    else .ok []
  fetch := fun _ => .ok (chars ("binary"))
  upload := fun k => if k = sdS3Key sdArgsCX (chars ("2023-11-05")) cxImage1 then
    .error (chars ("upload failed")) else .ok ()
  unlink := fun _ => .ok ()

/-- Recognizer for binary-fetch attempts. -/
def isFetchQuery : Event → Bool
  | .fetchQuery _ => true
  | _ => false

/-- Counterexample to claim C1: in `epic_s3_downloader.main` a remote-store
upload failure affecting a single image (only the first image's upload key
fails; all other uploads and deletes would succeed) aborts the date's
remaining images: of three images only one is fetched and downloaded,
instead of the three downloads the claimed isolation would produce. -/
theorem failure_isolation_counterexample :
    (sdRunDates envCX sdArgsCX [chars ("2023-11-05")]).1 = 1 ∧
    (sdRunDates envCX sdArgsCX [chars ("2023-11-05")]).2.1 = 0 ∧
    ((sdRunDates envCX sdArgsCX [chars ("2023-11-05")]).2.2.filter isFetchQuery).length
      = 1 := by
  refine ⟨?_, ?_, ?_⟩ <;> rfl

/-- Claim C1 (amended): binary-fetch failures are isolated at single-image
granularity in both orchestrators — in `epic_s3_downloader.main` in every
run in which no store operation fails (local-only runs, and upload runs
whose remote-store uploads and local deletes succeed), since a failing
store operation is itself the carved-out abort case — and in the CLI
orchestrator upload failures are isolated as well.  In
`epic_s3_downloader.main` an upload or local-delete error skips the
remaining images of that date only: the per-date results always compose
independently, so sibling dates and the overall run are never aborted.
With three images on a date and a fetch failure on exactly one of them, the
other two are still downloaded and the reported count is 2. -/
theorem failure_isolation_amended :
    (∀ (env : Env) (args : SdArgs) (d : List Char) (l1 l2 : List ImageRecord),
      noStoreFailures env args → (splitSep '-' d).length = 3 →
      sdProcessImages env args d (l1 ++ l2) =
        ((sdProcessImages env args d l1).1 + (sdProcessImages env args d l2).1,
         (sdProcessImages env args d l1).2.1 + (sdProcessImages env args d l2).2.1,
         (sdProcessImages env args d l1).2.2 ++ (sdProcessImages env args d l2).2.2)) ∧
    (∀ (env : Env) (args : CliArgs) (d : List Char) (l1 l2 : List ImageRecord),
      (∀ img ∈ l1 ++ l2, (splitSep '-' img.date).length = 3) →
      ∃ r1 r2, cliProcessImages env args d l1 = .ok r1 ∧
        cliProcessImages env args d l2 = .ok r2 ∧
        cliProcessImages env args d (l1 ++ l2) =
          .ok (r1.1 + r2.1, r1.2.1 + r2.2.1, r1.2.2 ++ r2.2.2)) ∧
    (∀ (env : Env) (args : SdArgs) (d : List Char) (rest : List (List Char)),
      sdRunDates env args (d :: rest) =
        ((sdProcessDate env args d).1 + (sdRunDates env args rest).1,
         (sdProcessDate env args d).2.1 + (sdRunDates env args rest).2.1,
         (sdProcessDate env args d).2.2 ++ (sdRunDates env args rest).2.2)) ∧
    (∀ (env : Env) (args : SdArgs) (d : List Char) (i1 i2 i3 : ImageRecord)
      (u1 u2 u3 e c2 c3 : List Char),
      noStoreFailures env args →
      env.meta d = .ok [i1, i2, i3] →
      build_image_url args.collection d i1.image (chars ("png")) = some u1 →
      build_image_url args.collection d i2.image (chars ("png")) = some u2 →
      build_image_url args.collection d i3.image (chars ("png")) = some u3 →
      env.fetch u1 = .error e → env.fetch u2 = .ok c2 → env.fetch u3 = .ok c3 →
      (sdProcessDate env args d).1 = 2) := by
  refine ⟨fun env args d l1 l2 hns hd => sdProcessImages_append env args d hns hd l1 l2,
    cliProcessImages_append, fun env args d rest => rfl, ?_⟩
  intro env args d i1 i2 i3 u1 u2 u3 e c2 c3 hns hmeta hb1 hb2 hb3 hf1 hf2 hf3
  have h1 : sdProcessImage env args d i1 = ⟨0, 0, [.fetchQuery u1], false⟩ := by
    unfold sdProcessImage
    simp only [hb1, hf1]
  have h2 := sdProcessImage_fetch_ok env args d i2 u2 c2 hns hb2 hf2
  have h3 := sdProcessImage_fetch_ok env args d i3 u3 c3 hns hb3 hf3
  unfold sdProcessDate
  rw [hmeta]
  simp [sdProcessImages, h1, h2.1, h2.2, h3.1, h3.2]

/-- Environment for the amended-claim witness: three images on the date,
the first image's fetch fails, the other two succeed, and every store
operation succeeds. -/
def envW3 : Env where
  meta := fun d => if d = chars ("2023-11-05") then .ok [cxImage1, cxImage2, cxImage3]
    else .ok []
  fetch := fun u =>
    if u = (build_image_url (chars ("natural")) (chars ("2023-11-05"))
        (chars ("epic_1b_20231105000001")) (chars ("png"))).getD [] then
      .error (chars ("timeout"))
    else .ok (chars ("binary"))
  upload := fun _ => .ok ()
  unlink := fun _ => .ok ()

/-- Concrete upload-mode script arguments (bucket set, local copies deleted
after upload) for the amended-claim witness. -/
def sdArgsUpload : SdArgs :=
  ⟨chars ("natural"), some (chars ("bkt")), chars ("imgs"), false, false⟩

/-- Witness for the amended C1: the spec's three-image scenario with one
fetch failure, in an upload-mode run whose store operations succeed,
reports exactly two downloads. -/
theorem failure_isolation_amended_witness :
    (sdProcessDate envW3 sdArgsUpload (chars ("2023-11-05"))).1 = 2 := by
  refine failure_isolation_amended.2.2.2 envW3 sdArgsUpload (chars ("2023-11-05"))
    cxImage1 cxImage2 cxImage3
    ((build_image_url (chars ("natural")) (chars ("2023-11-05"))
      (chars ("epic_1b_20231105000001")) (chars ("png"))).getD [])
    ((build_image_url (chars ("natural")) (chars ("2023-11-05"))
      (chars ("epic_1b_20231105000002")) (chars ("png"))).getD [])
    ((build_image_url (chars ("natural")) (chars ("2023-11-05"))
      (chars ("epic_1b_20231105000003")) (chars ("png"))).getD [])
    (chars ("timeout")) (chars ("binary")) (chars ("binary"))
    (Or.inr ⟨fun k => rfl, fun p => rfl⟩) rfl
    (by rfl) (by rfl) (by rfl) (by rfl) (by rfl) (by rfl)

/-- The date-related fields of the lambda event payload consumed by
`lambda_handler.get_date_range`. -/
structure LambdaEvent where
  start_date : Option (List Char)
  end_date : Option (List Char)
  days_back : Option Int
  date_range_days : Option Int

/-- The environment variables read by `lambda_handler.get_date_range`.
`DAYS_BACK` holds the parsed integer value of the variable when it is set. -/
structure EnvVars where
  START_DATE : Option (List Char)
  END_DATE : Option (List Char)
  DAYS_BACK : Option Int

/-- Python truthiness of an optional string: absent and empty values are
falsy. -/
def pyTruthy : Option (List Char) → Bool
  | none => false
  | some s => !s.isEmpty

/-- Python `int(v or d)` on an optional integer: `None` and `0` yield the
default. -/
def pyOrInt (v : Option Int) (d : Int) : Int :=
  match v with
  | none => d
  | some x => if x = 0 then d else x

/-- Rendering of a day (as a signed day index) by `strftime("%Y-%m-%d")`,
abstracted to an injective textual rendering of the day number. -/
def dayStr (d : Int) : List Char := (toString d).toList

/-- Embedding of `lambda_handler.get_date_range`: explicit payload dates when both are
truthy; else the relative `days_back`/`date_range_days` computation when
either is present; else the `START_DATE`/`END_DATE` environment variables
when both are truthy; else a single day `int(os.getenv("DAYS_BACK", "1"))`
days before today.  `today` stands for `datetime.now(tz=timezone.utc)`
truncated to days. -/
def get_date_range (ev : LambdaEvent) (envv : EnvVars) (today : Int) :
    List Char × List Char :=
  if pyTruthy ev.start_date && pyTruthy ev.end_date then
    (ev.start_date.getD [], ev.end_date.getD [])
  else if ev.days_back.isSome || ev.date_range_days.isSome then
    (dayStr (today - pyOrInt ev.days_back 1 - (pyOrInt ev.date_range_days 1 - 1)),
     dayStr (today - pyOrInt ev.days_back 1))
  else if pyTruthy envv.START_DATE && pyTruthy envv.END_DATE then
    (envv.START_DATE.getD [], envv.END_DATE.getD [])
  else
    (dayStr (today - envv.DAYS_BACK.getD 1), dayStr (today - envv.DAYS_BACK.getD 1))

/-- Event with no date information at all. -/
def evCX : LambdaEvent := ⟨none, none, none, none⟩

/-- Environment with no explicit date range but `DAYS_BACK=3`. -/
def envVarsCX : EnvVars := ⟨none, none, some 3⟩

/-- Counterexample to claim C9: with an empty event, no `START_DATE` /
`END_DATE`, and the environment variable `DAYS_BACK=3`, the resolver does
not fall back to the claimed single-day default of yesterday; it returns
the single day three days back. -/
theorem date_range_default_counterexample :
    get_date_range evCX envVarsCX 1000 ≠ (dayStr (1000 - 1), dayStr (1000 - 1)) ∧
    get_date_range evCX envVarsCX 1000 = (dayStr (1000 - 3), dayStr (1000 - 3)) := by
  constructor
  · decide
  · decide

/-- Claim C9 (amended): date-range resolution follows the strict precedence
chain — explicit (truthy) payload dates first; otherwise the relative
`days_back`/`date_range_days` computation when either is present; otherwise
the `START_DATE`/`END_DATE` environment variables when both are set; and
otherwise a single-day default lying `DAYS_BACK` days in the past, where
the `DAYS_BACK` environment variable defaults to 1 (yesterday). -/
theorem date_range_resolution_amended (ev : LambdaEvent) (envv : EnvVars) (today : Int) :
    (pyTruthy ev.start_date = true → pyTruthy ev.end_date = true →
      get_date_range ev envv today = (ev.start_date.getD [], ev.end_date.getD [])) ∧
    (¬(pyTruthy ev.start_date = true ∧ pyTruthy ev.end_date = true) →
      (ev.days_back.isSome = true ∨ ev.date_range_days.isSome = true) →
      get_date_range ev envv today =
        (dayStr (today - pyOrInt ev.days_back 1 - (pyOrInt ev.date_range_days 1 - 1)),
         dayStr (today - pyOrInt ev.days_back 1))) ∧
    (¬(pyTruthy ev.start_date = true ∧ pyTruthy ev.end_date = true) →
      ev.days_back = none → ev.date_range_days = none →
      pyTruthy envv.START_DATE = true → pyTruthy envv.END_DATE = true →
      get_date_range ev envv today = (envv.START_DATE.getD [], envv.END_DATE.getD [])) ∧
    (¬(pyTruthy ev.start_date = true ∧ pyTruthy ev.end_date = true) →
      ev.days_back = none → ev.date_range_days = none →
      ¬(pyTruthy envv.START_DATE = true ∧ pyTruthy envv.END_DATE = true) →
      get_date_range ev envv today =
        (dayStr (today - envv.DAYS_BACK.getD 1), dayStr (today - envv.DAYS_BACK.getD 1))) := by
  refine ⟨?_, ?_, ?_, ?_⟩
  · intro h1 h2
    simp [get_date_range, h1, h2]
  · intro hne hsome
    have hcond : (pyTruthy ev.start_date && pyTruthy ev.end_date) = false := by
      cases hx : pyTruthy ev.start_date <;> cases hy : pyTruthy ev.end_date <;> simp_all
    have hcond2 : (ev.days_back.isSome || ev.date_range_days.isSome) = true := by
      rcases hsome with h | h <;> simp [h]
    simp [get_date_range, hcond, hcond2]
  · intro hne hdb hdrd h3 h4
    have hcond : (pyTruthy ev.start_date && pyTruthy ev.end_date) = false := by
      cases hx : pyTruthy ev.start_date <;> cases hy : pyTruthy ev.end_date <;> simp_all
    simp [get_date_range, hcond, hdb, hdrd, h3, h4]
  · intro hne hdb hdrd hne2
    have hcond : (pyTruthy ev.start_date && pyTruthy ev.end_date) = false := by
      cases hx : pyTruthy ev.start_date <;> cases hy : pyTruthy ev.end_date <;> simp_all
    have hcond3 : (pyTruthy envv.START_DATE && pyTruthy envv.END_DATE) = false := by
      cases hx : pyTruthy envv.START_DATE <;> cases hy : pyTruthy envv.END_DATE <;> simp_all
    simp [get_date_range, hcond, hdb, hdrd, hcond3]

/-- Witness for the amended C9: explicit payload dates win, and the empty
event with `DAYS_BACK=3` resolves to the single day three days back. -/
theorem date_range_resolution_amended_witness :
    get_date_range ⟨some (chars ("2024-01-01")), some (chars ("2024-01-05")), none, none⟩
        envVarsCX 1000 = (chars ("2024-01-01"), chars ("2024-01-05")) ∧
    get_date_range evCX envVarsCX 1000 = (dayStr 997, dayStr 997) := by
  constructor
  · exact (date_range_resolution_amended
      ⟨some (chars ("2024-01-01")), some (chars ("2024-01-05")), none, none⟩
      envVarsCX 1000).1 (by decide) (by decide)
  · have h := (date_range_resolution_amended evCX envVarsCX 1000).2.2.2
      (by decide) rfl rfl (by decide)
    simpa using h

end EpicApi
